import Mathlib

/-!
Verification development for `morb/units.py`: the unit types of an RBM-style
model (Binary, Gaussian, LearntPrecisionGaussian, Softmax, SoftmaxWithZero,
Exponential, NREL, Gamma, SymmetricBinary units and their proxy units).

Activation tensors are modelled as finitely branching trees over real
scalars: axis 0 of a rank-n tensor is the outer list level, so the same type
covers every rank.  Floating point arithmetic is idealised over the reals.
The external sampler collaborators (`morb.samplers`, not under `src/`) are
modelled symbolically: a sampler call is recorded as a `Draw` value carrying
the distribution parameters the code hands to it, except for `multinomial`,
whose output structure is itself specified, so it is modelled with an
explicit source of random category choices.  vmap lookup (a Python dict
access, raising `KeyError` on a missing key) is modelled as an
`Option`-valued lookup: `none` is the propagated lookup failure.
-/

/-- A real-valued tensor of arbitrary rank: a scalar, or a list of
subtensors along the leading axis. -/
inductive Tensor where
  | scalar (x : ℝ) : Tensor
  | axis (ts : List Tensor) : Tensor

namespace Tensor

mutual

/-- Elementwise application of a scalar function (theano broadcasting of a
unary elementwise op). -/
def map (f : ℝ → ℝ) : Tensor → Tensor
  | .scalar x => .scalar (f x)
  | .axis ts => .axis (mapAux f ts)

/-- Helper of `Tensor.map` on lists of subtensors. -/
def mapAux (f : ℝ → ℝ) : List Tensor → List Tensor
  | [] => []
  | t :: ts => map f t :: mapAux f ts

end

mutual

/-- Elementwise combination of two same-shaped tensors (theano elementwise
binary op); on a shape mismatch the first operand is returned, a junk value
never reached on the shapes the code is run at. -/
def map₂ (f : ℝ → ℝ → ℝ) : Tensor → Tensor → Tensor
  | .scalar x, .scalar y => .scalar (f x y)
  | .axis ts, .axis us => .axis (map₂Aux f ts us)
  | .scalar x, .axis _ => .scalar x
  | .axis ts, .scalar _ => .axis ts

/-- Helper of `Tensor.map₂` on lists of subtensors. -/
def map₂Aux (f : ℝ → ℝ → ℝ) : List Tensor → List Tensor → List Tensor
  | t :: ts, u :: us => map₂ f t u :: map₂Aux f ts us
  | _, _ => []

end

mutual

/-- Sum of every entry of a tensor (`T.sum` over all axes). -/
def sumAll : Tensor → ℝ
  | .scalar x => x
  | .axis ts => sumAllList ts

/-- Helper of `Tensor.sumAll`: total sum of a list of tensors. -/
def sumAllList : List Tensor → ℝ
  | [] => 0
  | t :: ts => sumAll t + sumAllList ts

end

/-- Embeds `T.sum(s, axis=range(1, s.ndim))`: sum over every axis except axis 0.
On a tensor of rank at least one this keeps the leading (minibatch) axis and
collapses each subtensor to the scalar sum of its entries; on a rank-0
tensor the axis list `range(1, 0)` is empty and the tensor is unchanged. -/
def sumAllButFirst : Tensor → Tensor
  | .scalar x => .scalar x
  | .axis ts => .axis (ts.map (fun t => .scalar (sumAll t)))

mutual

/-- Every entry of the tensor satisfies `p`. -/
def Forall (p : ℝ → Prop) : Tensor → Prop
  | .scalar x => p x
  | .axis ts => ForallList p ts

/-- Helper of `Tensor.Forall` on lists of subtensors. -/
def ForallList (p : ℝ → Prop) : List Tensor → Prop
  | [] => True
  | t :: ts => Forall p t ∧ ForallList p ts

end

end Tensor

/-- The rank-2 tensor with the given rows (axis 0 = minibatch, axis 1 =
units within the layer). -/
def matrixT (rows : List (List ℝ)) : Tensor :=
  .axis (rows.map (fun r => .axis (r.map .scalar)))

/-- Modelled from the spec: `morb.activation_functions.sigmoid` (module not
under `src/`), the elementwise logistic function. -/
noncomputable def sigmoid (x : ℝ) : ℝ := 1 / (1 + Real.exp (-x))

/-- Embeds `T.nnet.softplus`, the numerically stable `log(1 + exp x)`, idealised
over the reals. -/
noncomputable def softplus (x : ℝ) : ℝ := Real.log (1 + Real.exp x)

/-- Modelled from the spec: the sampler collaborators of `morb.samplers`
(module not under `src/`) are pure random-variate generators parameterised
by distribution-specific tensors; a call is recorded symbolically as the
sampler's name together with the parameter tensors the caller hands to it.
The one-argument call `samplers.gaussian(a)` (fixed unit variance per the
spec) is recorded by its own constructor. -/
inductive Draw where
  | bernoulli (p : Tensor) : Draw
  | gaussian (mean var : Tensor) : Draw
  | gaussianUnitVariance (mean : Tensor) : Draw
  | truncatedExponential (rate : Tensor) : Draw
  | exponential (rate : Tensor) : Draw
  | gammaApprox (shape scale : Tensor) : Draw

/-- The activation-lookup mapping: unit identity (a numeric id standing for
the Python object identity of a unit or proxy unit) to activation tensor.
A missing key is `none`; reading it is the propagated `KeyError`. -/
def VMap : Type := ℕ → Option Tensor

/-- Modelled from the spec: `morb.base.ProxyUnits` (module not under
`src/`) — a unit-like view over a base unit, holding a back-reference to the
base unit, an optional name, and the pure elementwise transform `func`
applied to the base unit's activation. -/
structure ProxyUnits where
  id : ℕ
  baseId : ℕ
  name : Option String
  func : ℝ → ℝ

/-- Embeds `class BinaryUnits(Units)`: independent Bernoulli units. -/
structure BinaryUnits where
  id : ℕ

/-- Embeds `BinaryUnits.sample_from_activation`: `samplers.bernoulli(sigmoid(vmap[self]))`. -/
noncomputable def BinaryUnits.sample_from_activation (u : BinaryUnits) (vmap : VMap) :
    Option Draw :=
  (vmap u.id).map (fun a => Draw.bernoulli (a.map sigmoid))

/-- Embeds `BinaryUnits.mean_field_from_activation`: `sigmoid(vmap[self])`. -/
noncomputable def BinaryUnits.mean_field_from_activation (u : BinaryUnits) (vmap : VMap) :
    Option Tensor :=
  (vmap u.id).map (Tensor.map sigmoid)

/-- Embeds `BinaryUnits.free_energy_term_from_activation`:
`T.sum(-T.nnet.softplus(vmap[self]), axis=range(1, s.ndim))`. -/
noncomputable def BinaryUnits.free_energy_term_from_activation (u : BinaryUnits)
    (vmap : VMap) : Option Tensor :=
  (vmap u.id).map (fun a => Tensor.sumAllButFirst (a.map (fun x => -(softplus x))))

/-- Embeds `GaussianPrecisionProxyUnits.__init__`: a `ProxyUnits` whose transform is
`lambda x: x**2 / 2.0`. -/
noncomputable def GaussianPrecisionProxyUnits.make (pid baseId : ℕ) (name : Option String) :
    ProxyUnits :=
  { id := pid, baseId := baseId, name := name, func := fun x => x ^ 2 / 2 }

/-- Embeds `class GaussianUnits(Units)`: fixed unit-variance Gaussian units with a
precision proxy.  The numeric ids stand for the Python object identities of
the unit and its proxy. -/
structure GaussianUnits where
  id : ℕ
  name : Option String
  precision_units : ProxyUnits
  proxy_units : List ProxyUnits

/-- Embeds `GaussianUnits.__init__`: builds the precision proxy with name
`name + "_precision"` (or no name) and registers it as the sole proxy. -/
noncomputable def GaussianUnits.make (uid pid : ℕ) (name : Option String) : GaussianUnits :=
  let proxy_name := name.map (fun n => n ++ ("_precision"))
  let p := GaussianPrecisionProxyUnits.make pid uid proxy_name
  { id := uid, name := name, precision_units := p, proxy_units := [p] }

/-- Embeds `class LearntPrecisionGaussianUnits(Units)`: Gaussian units whose
precision is carried by a proxy channel (`func = x**2`). -/
structure LearntPrecisionGaussianUnits where
  id : ℕ
  precision_units : ProxyUnits

/-- Embeds `LearntPrecisionGaussianUnits.sample_from_activation`:
`a1 = vmap[self]; a2 = vmap[self.precision_units];
samplers.gaussian(a1/(-2*a2), 1/(-2*a2))` (elementwise tensor arithmetic). -/
noncomputable def LearntPrecisionGaussianUnits.sample_from_activation
    (u : LearntPrecisionGaussianUnits) (vmap : VMap) : Option Draw := do
  let a1 ← vmap u.id
  let a2 ← vmap u.precision_units.id
  pure (Draw.gaussian (Tensor.map₂ (fun x y => x / y) a1 (a2.map (fun y => -2 * y)))
    ((a2.map (fun y => -2 * y)).map (fun y => 1 / y)))

/-- Embeds `class SoftmaxWithZeroUnits(Units)`.  Its activation is rank 3
(minibatch × units × states), modelled concretely as nested lists here. -/
structure SoftmaxWithZeroUnits where
  id : ℕ

/-- A rank-3 activation tensor: minibatch × units × states. -/
abbrev Tensor3 : Type := List (List (List ℝ))

/-- The vmap view used by the Softmax family, whose activations are rank 3. -/
abbrev VMap3 : Type := ℕ → Option Tensor3

/-- Modelled from the spec: `morb.activation_functions.softmax_with_zero`
(module not under `src/`) — softmax over the last axis extended with one
implicit zero logit, so each probability row has one extra final entry
`1 / (1 + sum(exp(states)))` for the zero state. -/
noncomputable def softmax_with_zero (x : Tensor3) : Tensor3 :=
  x.map (fun mb => mb.map (fun states =>
    states.map (fun v => Real.exp v / (1 + (states.map Real.exp).sum)) ++
      [1 / (1 + (states.map Real.exp).sum)]))

/-- The one-hot row of length `n` selected by category `c` (all zero when
`c` is out of range). -/
def onehotRow (c n : ℕ) : List ℝ :=
  (List.range n).map (fun k => if c = k then (1 : ℝ) else 0)

/-- Modelled from the spec: `morb.samplers.multinomial` (module not under
`src/`) — one categorical draw per (minibatch, unit) row, returned one-hot
over the states axis.  The randomness is passed in explicitly as the chosen
category per (minibatch, unit) position; only the chosen position receives
probability mass 1, every other state 0. -/
def multinomial (choices : List (List ℕ)) (p : Tensor3) : Tensor3 :=
  List.zipWith (fun crow prow =>
    List.zipWith (fun c states => onehotRow c states.length) crow prow) choices p

/-- Embeds `SoftmaxWithZeroUnits.sample_from_activation`:
`p0 = softmax_with_zero(vmap[self]); s0 = multinomial(p0);
s = s0[:, :, :-1]` — the last (zero) state column is chopped off. -/
noncomputable def SoftmaxWithZeroUnits.sample_from_activation
    (u : SoftmaxWithZeroUnits) (choices : List (List ℕ)) (vmap : VMap3) :
    Option Tensor3 :=
  (vmap u.id).map (fun a =>
    (multinomial choices (softmax_with_zero a)).map (fun mb => mb.map List.dropLast))

/-- Embeds `class NRELUnits(Units)`: noisy rectified linear units. -/
structure NRELUnits where
  id : ℕ

/-- Embeds `NRELUnits.sample_from_activation`: the source line
`s = a + samplers.gaussian(0, T.nnet.sigmoid(vmap[self]))` reads the name
`a`, which is bound nowhere in the function or module.  Python evaluates the
left operand of `+` first, so every call raises `NameError` before the vmap
is even consulted; the modelled result is that unconditional error. -/
def NRELUnits.sample_from_activation (_u : NRELUnits) (_vmap : VMap) :
    Except String Tensor :=
  Except.error ("NameError: name a is not defined")

/-- Embeds `GammaLogProxyUnits.__init__`: a `ProxyUnits` whose transform is
`lambda x: T.log(x)`. -/
noncomputable def GammaLogProxyUnits.make (pid baseId : ℕ) (name : Option String) :
    ProxyUnits :=
  { id := pid, baseId := baseId, name := name, func := fun x => Real.log x }

/-- Embeds `class GammaUnits(Units)`: two-parameter Gamma units with a log proxy. -/
structure GammaUnits where
  id : ℕ
  log_units : ProxyUnits

/-- Embeds `GammaUnits.sample_from_activation`:
`a1 = vmap[self]; a2 = vmap[self.log_units];
samplers.gamma_approx(a2 + 1, -1/a1)` (elementwise tensor arithmetic). -/
noncomputable def GammaUnits.sample_from_activation (u : GammaUnits) (vmap : VMap) :
    Option Draw := do
  let a1 ← vmap u.id
  let a2 ← vmap u.log_units.id
  pure (Draw.gammaApprox (a2.map (fun y => y + 1)) (a1.map (fun x => -1 / x)))

/-- Embeds `GammaUnits.sample`: resolves both activations through the owning
model's activation computation (`self.activation(vmap)` from `morb.base`,
not under `src/`, supplied here as the collaborator `modelAct`), builds the
inline two-key vmap `{self: a1, self.log_units: a2}` and delegates to
`sample_from_activation`. -/
noncomputable def GammaUnits.sample (u : GammaUnits) (modelAct : ℕ → VMap → Option Tensor)
    (vmap : VMap) : Option Draw := do
  let a1 ← modelAct u.id vmap
  let a2 ← modelAct u.log_units.id vmap
  u.sample_from_activation
    (fun k => if k = u.id then some a1 else if k = u.log_units.id then some a2 else none)

/-- Embeds `SymmetricBinaryProxyUnits.__init__`: a `ProxyUnits` whose transform is
`lambda x: 1 - x` (the flip). -/
def SymmetricBinaryProxyUnits.make (pid baseId : ℕ) (name : Option String) :
    ProxyUnits :=
  { id := pid, baseId := baseId, name := name, func := fun x => 1 - x }

/-- Embeds `class SymmetricBinaryUnits(Units)`: binary units whose energy uses both
`x` and `1 - x` through the flipped proxy. -/
structure SymmetricBinaryUnits where
  id : ℕ
  flipped_units : ProxyUnits

/-- Embeds `SymmetricBinaryUnits.sample_from_activation`:
`samplers.bernoulli(sigmoid(vmap[self] - vmap[self.flipped_units]))`. -/
noncomputable def SymmetricBinaryUnits.sample_from_activation
    (u : SymmetricBinaryUnits) (vmap : VMap) : Option Draw := do
  let a ← vmap u.id
  let f ← vmap u.flipped_units.id
  pure (Draw.bernoulli ((Tensor.map₂ (fun x y => x - y) a f).map sigmoid))

/-- Embeds `SymmetricBinaryUnits.mean_field_from_activation`:
`sigmoid(vmap[self] - vmap[self.flipped_units])`. -/
noncomputable def SymmetricBinaryUnits.mean_field_from_activation
    (u : SymmetricBinaryUnits) (vmap : VMap) : Option Tensor := do
  let a ← vmap u.id
  let f ← vmap u.flipped_units.id
  pure ((Tensor.map₂ (fun x y => x - y) a f).map sigmoid)

/-- Embeds `GaussianUnits.sample_from_activation`: the one-argument call
`samplers.gaussian(vmap[self])` (fixed unit variance per the spec). -/
def GaussianUnits.sample_from_activation (u : GaussianUnits) (vmap : VMap) :
    Option Draw :=
  (vmap u.id).map (fun a => Draw.gaussianUnitVariance a)

/-- Embeds `GaussianUnits.mean_field_from_activation`: `return vmap[self]`. -/
def GaussianUnits.mean_field_from_activation (u : GaussianUnits) (vmap : VMap) :
    Option Tensor :=
  vmap u.id

/-- Embeds `class SoftmaxUnits(Units)`: categorical units, activation of
rank 3 (minibatch × units × states). -/
structure SoftmaxUnits where
  id : ℕ

/-- Modelled from the spec: `morb.activation_functions.softmax` (module not
under `src/`) — softmax over the last (states) axis. -/
noncomputable def softmax (x : Tensor3) : Tensor3 :=
  x.map (fun mb => mb.map (fun states =>
    states.map (fun v => Real.exp v / (states.map Real.exp).sum)))

/-- Embeds `SoftmaxUnits.sample_from_activation`:
`samplers.multinomial(softmax(vmap[self]))`, with the multinomial's
randomness passed in explicitly as for `SoftmaxWithZeroUnits`. -/
noncomputable def SoftmaxUnits.sample_from_activation (u : SoftmaxUnits)
    (choices : List (List ℕ)) (vmap : VMap3) : Option Tensor3 :=
  (vmap u.id).map (fun a => multinomial choices (softmax a))

/-- Embeds `class TruncatedExponentialUnits(Units)`: exponential units
truncated to [0,1], rate = minus the activation. -/
structure TruncatedExponentialUnits where
  id : ℕ

/-- Embeds `TruncatedExponentialUnits.sample_from_activation`:
`samplers.truncated_exponential(-vmap[self])`. -/
def TruncatedExponentialUnits.sample_from_activation
    (u : TruncatedExponentialUnits) (vmap : VMap) : Option Draw :=
  (vmap u.id).map (fun a => Draw.truncatedExponential (a.map (fun x => -x)))

/-- Embeds `TruncatedExponentialUnits.mean_field_from_activation`:
`samplers.truncated_exponential_mean(-vmap[self])`.  The helper
`truncated_exponential_mean` lives in `morb.samplers` (not under `src/`);
the spec says only that it is the pure closed-form truncated mean, so it is
supplied here as the collaborator parameter `tem`, applied to the negated
activation exactly as in the source. -/
def TruncatedExponentialUnits.mean_field_from_activation
    (u : TruncatedExponentialUnits) (tem : Tensor → Tensor) (vmap : VMap) :
    Option Tensor :=
  (vmap u.id).map (fun a => tem (a.map (fun x => -x)))

/-- Embeds `class ExponentialUnits(Units)`: exponential units on [0,∞),
rate = minus the activation. -/
structure ExponentialUnits where
  id : ℕ

/-- Embeds `ExponentialUnits.sample_from_activation`:
`samplers.exponential(-vmap[self])`. -/
def ExponentialUnits.sample_from_activation (u : ExponentialUnits)
    (vmap : VMap) : Option Draw :=
  (vmap u.id).map (fun a => Draw.exponential (a.map (fun x => -x)))

/-- Embeds `ExponentialUnits.mean_field_from_activation`:
`1.0 / (-vmap[self])` elementwise. -/
noncomputable def ExponentialUnits.mean_field_from_activation (u : ExponentialUnits)
    (vmap : VMap) : Option Tensor :=
  (vmap u.id).map (fun a => a.map (fun x => 1 / (-x)))

/-- Embeds `NRELUnits.mean_field_from_activation`: `T.max(0, vmap[self])`,
read per the spec as the elementwise rectification `max(0, a)`.  The vmap
entry is read while the argument is evaluated, before `T.max` is applied,
so a missing entry surfaces as the propagated lookup failure. -/
def NRELUnits.mean_field_from_activation (u : NRELUnits) (vmap : VMap) :
    Option Tensor :=
  (vmap u.id).map (fun a => a.map (fun x => max 0 x))

/-- Embeds `SymmetricBinaryUnits.free_energy_term_from_activation`:
`T.sum(-T.nnet.softplus(vmap[self] - vmap[self.flipped_units]),
axis=range(1, s.ndim))`. -/
noncomputable def SymmetricBinaryUnits.free_energy_term_from_activation
    (u : SymmetricBinaryUnits) (vmap : VMap) : Option Tensor := do
  let a ← vmap u.id
  let f ← vmap u.flipped_units.id
  pure (Tensor.sumAllButFirst
    ((Tensor.map₂ (fun x y => x - y) a f).map (fun x => -(softplus x))))

/-- Sample-row shape: the row has exactly one entry equal to 1 (every other
entry 0) or is all-zero — never more than one 1-entry — and every entry is
0 or 1. -/
def RowIsOneHotOrZero (row : List ℝ) : Prop :=
  ((∃ k, k < row.length ∧ row[k]? = some 1 ∧
      ∀ j, j < row.length → j ≠ k → row[j]? = some 0) ∨
    ∀ j, j < row.length → row[j]? = some 0) ∧
  ∀ y ∈ row, y = 0 ∨ y = 1

/-! ### Helper lemmas about the tensor model -/

/-- Induction over tensors with the members of an axis handled pointwise. -/
theorem Tensor.inductionOn (motive : Tensor → Prop) (hs : ∀ x, motive (Tensor.scalar x))
    (ha : ∀ ts, (∀ t ∈ ts, motive t) → motive (Tensor.axis ts)) : ∀ t, motive t
  | .scalar x => hs x
  | .axis ts => ha ts (fun t ht => Tensor.inductionOn motive hs ha t)
termination_by t => sizeOf t
decreasing_by
  have h := List.sizeOf_lt_of_mem ht
  simp only [Tensor.axis.sizeOf_spec]
  omega

/-- Unfolding `Tensor.mapAux` to a plain `List.map`. -/
@[simp] theorem Tensor.mapAux_eq (f : ℝ → ℝ) (ts : List Tensor) :
    Tensor.mapAux f ts = ts.map (Tensor.map f) := by
  induction ts with
  | nil => simp [Tensor.mapAux]
  | cons t ts ih => simp [Tensor.mapAux, ih]

/-- Composition of two elementwise maps. -/
theorem Tensor.map_map (f g : ℝ → ℝ) (t : Tensor) :
    (t.map f).map g = t.map (fun x => g (f x)) := by
  induction t using Tensor.inductionOn with
  | hs x => simp [Tensor.map]
  | ha ts ih =>
    simp only [Tensor.map, Tensor.mapAux_eq, List.map_map, Tensor.axis.injEq]
    exact List.map_congr_left (fun t ht => ih t ht)

/-- Pointwise equal functions give equal elementwise maps. -/
theorem Tensor.map_congr (f g : ℝ → ℝ) (h : ∀ x, f x = g x) (t : Tensor) :
    t.map f = t.map g := by
  induction t using Tensor.inductionOn with
  | hs x => simp [Tensor.map, h]
  | ha ts ih =>
    simp only [Tensor.map, Tensor.mapAux_eq, Tensor.axis.injEq]
    exact List.map_congr_left (fun t ht => ih t ht)

/-- List-level step for `Tensor.map₂_self_map`. -/
theorem Tensor.map₂Aux_self (f : ℝ → ℝ → ℝ) (g : ℝ → ℝ) (ts : List Tensor)
    (h : ∀ t ∈ ts, Tensor.map₂ f t (t.map g) = t.map (fun x => f x (g x))) :
    Tensor.map₂Aux f ts (ts.map (Tensor.map g)) = ts.map (Tensor.map (fun x => f x (g x))) := by
  induction ts with
  | nil => simp [Tensor.map₂Aux]
  | cons t ts ih =>
    simp only [List.map_cons, Tensor.map₂Aux, List.cons.injEq]
    exact ⟨h t (by simp), ih (fun u hu => h u (by simp [hu]))⟩

/-- Combining a tensor elementwise with an elementwise image of itself. -/
theorem Tensor.map₂_self_map (f : ℝ → ℝ → ℝ) (g : ℝ → ℝ) (t : Tensor) :
    Tensor.map₂ f t (t.map g) = t.map (fun x => f x (g x)) := by
  induction t using Tensor.inductionOn with
  | hs x => simp [Tensor.map, Tensor.map₂]
  | ha ts ih =>
    simp only [Tensor.map, Tensor.mapAux_eq, Tensor.map₂, Tensor.axis.injEq]
    exact Tensor.map₂Aux_self f g ts ih

/-- List-level step for `Tensor.map₂_map_right`. -/
theorem Tensor.map₂Aux_mapRight (f : ℝ → ℝ → ℝ) (g : ℝ → ℝ) :
    ∀ (ts us : List Tensor),
      (∀ t ∈ ts, ∀ u : Tensor, Tensor.map₂ f t (u.map g) =
        Tensor.map₂ (fun x y => f x (g y)) t u) →
      Tensor.map₂Aux f ts (us.map (Tensor.map g)) =
        Tensor.map₂Aux (fun x y => f x (g y)) ts us := by
  intro ts
  induction ts with
  | nil => intro us h; cases us <;> simp [Tensor.map₂Aux]
  | cons t ts ih =>
    intro us h
    cases us with
    | nil => simp [Tensor.map₂Aux]
    | cons u us =>
      simp only [List.map_cons, Tensor.map₂Aux, List.cons.injEq]
      exact ⟨h t (by simp) u, ih us (fun w hw v => h w (by simp [hw]) v)⟩

/-- Absorbing an elementwise map of the right operand into the binary op. -/
theorem Tensor.map₂_map_right (f : ℝ → ℝ → ℝ) (g : ℝ → ℝ) (t : Tensor) :
    ∀ u : Tensor, Tensor.map₂ f t (u.map g) = Tensor.map₂ (fun x y => f x (g y)) t u := by
  induction t using Tensor.inductionOn with
  | hs x => intro u; cases u <;> simp [Tensor.map, Tensor.map₂]
  | ha ts ih =>
    intro u
    cases u with
    | scalar y => simp [Tensor.map, Tensor.map₂]
    | axis us =>
      simp only [Tensor.map, Tensor.mapAux_eq, Tensor.map₂, Tensor.axis.injEq]
      exact Tensor.map₂Aux_mapRight f g ts us ih

/-- List-level step for `Tensor.forall_map_intro`. -/
theorem Tensor.forallList_map_intro (p : ℝ → Prop) (f : ℝ → ℝ) (ts : List Tensor)
    (h : ∀ t ∈ ts, Tensor.Forall p (t.map f)) :
    Tensor.ForallList p (ts.map (Tensor.map f)) := by
  induction ts with
  | nil => simp [Tensor.ForallList]
  | cons t ts ih =>
    simp only [List.map_cons, Tensor.ForallList]
    exact ⟨h t (by simp), ih (fun u hu => h u (by simp [hu]))⟩

/-- Every entry of an elementwise image satisfies `p` when `p ∘ f` holds
everywhere. -/
theorem Tensor.forall_map_intro (p : ℝ → Prop) (f : ℝ → ℝ) (h : ∀ x, p (f x)) (t : Tensor) :
    Tensor.Forall p (t.map f) := by
  induction t using Tensor.inductionOn with
  | hs x => simpa [Tensor.map, Tensor.Forall] using h x
  | ha ts ih =>
    simp only [Tensor.map, Tensor.mapAux_eq, Tensor.Forall]
    exact Tensor.forallList_map_intro p f ts ih

/-- The logistic function is positive. -/
theorem sigmoid_pos (x : ℝ) : 0 < sigmoid x := by
  unfold sigmoid
  positivity

/-- The logistic function stays below one. -/
theorem sigmoid_lt_one (x : ℝ) : sigmoid x < 1 := by
  unfold sigmoid
  rw [div_lt_one (by positivity)]
  have h := Real.exp_pos (-x)
  linarith

/-- The logistic function at zero. -/
theorem sigmoid_zero : sigmoid 0 = 1 / 2 := by
  unfold sigmoid
  rw [neg_zero, Real.exp_zero]
  norm_num

/-- Softplus at zero. -/
theorem softplus_zero : softplus 0 = Real.log 2 := by
  unfold softplus
  rw [Real.exp_zero]
  norm_num

/-! ### Claim theorems -/

/-- C7: constructing a `GaussianUnits` with name "x" creates exactly one
proxy unit; the `proxy_units` list has length one, the proxy is the one
reachable via `precision_units`, its name is "x_precision", and its
transform maps every input `x` to `x^2 / 2`. -/
theorem gaussian_units_make_proxy (uid pid : ℕ) :
    (GaussianUnits.make uid pid (some ("x"))).proxy_units.length = 1 ∧
    (GaussianUnits.make uid pid (some ("x"))).proxy_units =
      [(GaussianUnits.make uid pid (some ("x"))).precision_units] ∧
    (GaussianUnits.make uid pid (some ("x"))).precision_units.name =
      some ("x_precision") ∧
    ∀ x : ℝ, (GaussianUnits.make uid pid (some ("x"))).precision_units.func x =
      x ^ 2 / 2 := by
  refine ⟨rfl, rfl, ?_, fun x => rfl⟩
  rfl

/-- C10: `GammaUnits.sample_from_activation` reads only the vmap entries of
the unit itself and of its log proxy; two vmaps agreeing on those two keys
give identical results whatever else they contain. -/
theorem gamma_sample_from_activation_reads_two_keys (u : GammaUnits)
    (vmap1 vmap2 : VMap) (h1 : vmap1 u.id = vmap2 u.id)
    (h2 : vmap1 u.log_units.id = vmap2 u.log_units.id) :
    u.sample_from_activation vmap1 = u.sample_from_activation vmap2 := by
  unfold GammaUnits.sample_from_activation
  rw [h1, h2]

/-- Witness for C10: two concrete vmaps agreeing on the two read keys but
differing on every other key give the same draw. -/
theorem gamma_sample_from_activation_reads_two_keys_witness :
    ((fun k => if k = 0 then some (matrixT [[-1]]) else if k = 1 then
        some (matrixT [[1]]) else none : VMap) 0 =
      (fun k => if k = 0 then some (matrixT [[-1]]) else if k = 1 then
        some (matrixT [[1]]) else some (matrixT [[99]]) : VMap) 0) ∧
    ((fun k => if k = 0 then some (matrixT [[-1]]) else if k = 1 then
        some (matrixT [[1]]) else none : VMap) 1 =
      (fun k => if k = 0 then some (matrixT [[-1]]) else if k = 1 then
        some (matrixT [[1]]) else some (matrixT [[99]]) : VMap) 1) ∧
    GammaUnits.sample_from_activation ⟨0, ⟨1, 0, none, fun x => x⟩⟩
        (fun k => if k = 0 then some (matrixT [[-1]]) else if k = 1 then
          some (matrixT [[1]]) else none) =
      GammaUnits.sample_from_activation ⟨0, ⟨1, 0, none, fun x => x⟩⟩
        (fun k => if k = 0 then some (matrixT [[-1]]) else if k = 1 then
          some (matrixT [[1]]) else some (matrixT [[99]])) :=
  ⟨rfl, rfl,
    gamma_sample_from_activation_reads_two_keys ⟨0, ⟨1, 0, none, fun x => x⟩⟩
      (fun k => if k = 0 then some (matrixT [[-1]]) else if k = 1 then
        some (matrixT [[1]]) else none)
      (fun k => if k = 0 then some (matrixT [[-1]]) else if k = 1 then
        some (matrixT [[1]]) else some (matrixT [[99]])) rfl rfl⟩

/-- C9 counterexample: `NRELUnits.sample_from_activation` does not fail
with a propagated lookup error on a missing vmap entry: with the unit's
entry missing it raises exactly the same unconditional `NameError` (the
unbound name `a`, evaluated before any vmap read) as with the entry
present, so its failure is independent of the lookup. -/
theorem nrel_sample_not_lookup_failure :
    ((fun _ => none : VMap) 0 = none) ∧
    NRELUnits.sample_from_activation ⟨0⟩ (fun _ => none) =
      NRELUnits.sample_from_activation ⟨0⟩ (fun _ => some (matrixT [[0]])) ∧
    NRELUnits.sample_from_activation ⟨0⟩ (fun _ => none) =
      Except.error ("NameError: name a is not defined") :=
  ⟨rfl, rfl, rfl⟩

/-- C9 (amended): for every `sample_from_activation`,
`mean_field_from_activation` and `free_energy_term_from_activation` method
of `units.py` except `NRELUnits.sample_from_activation` (which raises
`NameError` before any vmap read), a vmap lacking the entry of a unit the
method reads — the unit itself or one of its proxies — makes the call fail
with the propagated lookup failure (`none`), with no default activation
substituted. -/
theorem missing_vmap_entry_fails :
    (∀ (u : BinaryUnits) (vmap : VMap), vmap u.id = none →
      u.sample_from_activation vmap = none ∧
      u.mean_field_from_activation vmap = none ∧
      u.free_energy_term_from_activation vmap = none) ∧
    (∀ (u : GaussianUnits) (vmap : VMap), vmap u.id = none →
      u.sample_from_activation vmap = none ∧
      u.mean_field_from_activation vmap = none) ∧
    (∀ (u : LearntPrecisionGaussianUnits) (vmap : VMap),
      vmap u.id = none ∨ vmap u.precision_units.id = none →
      u.sample_from_activation vmap = none) ∧
    (∀ (u : SoftmaxUnits) (choices : List (List ℕ)) (vmap : VMap3),
      vmap u.id = none → u.sample_from_activation choices vmap = none) ∧
    (∀ (u : SoftmaxWithZeroUnits) (choices : List (List ℕ)) (vmap : VMap3),
      vmap u.id = none → u.sample_from_activation choices vmap = none) ∧
    (∀ (u : TruncatedExponentialUnits) (tem : Tensor → Tensor) (vmap : VMap),
      vmap u.id = none →
      u.sample_from_activation vmap = none ∧
      u.mean_field_from_activation tem vmap = none) ∧
    (∀ (u : ExponentialUnits) (vmap : VMap), vmap u.id = none →
      u.sample_from_activation vmap = none ∧
      u.mean_field_from_activation vmap = none) ∧
    (∀ (u : NRELUnits) (vmap : VMap), vmap u.id = none →
      u.mean_field_from_activation vmap = none) ∧
    (∀ (u : GammaUnits) (vmap : VMap),
      vmap u.id = none ∨ vmap u.log_units.id = none →
      u.sample_from_activation vmap = none) ∧
    (∀ (u : SymmetricBinaryUnits) (vmap : VMap),
      vmap u.id = none ∨ vmap u.flipped_units.id = none →
      u.sample_from_activation vmap = none ∧
      u.mean_field_from_activation vmap = none ∧
      u.free_energy_term_from_activation vmap = none) := by
  refine ⟨?_, ?_, ?_, ?_, ?_, ?_, ?_, ?_, ?_, ?_⟩
  · intro u vmap h
    refine ⟨?_, ?_, ?_⟩ <;>
      simp [BinaryUnits.sample_from_activation, BinaryUnits.mean_field_from_activation,
        BinaryUnits.free_energy_term_from_activation, h]
  · intro u vmap h
    exact ⟨by simp [GaussianUnits.sample_from_activation, h], h⟩
  · intro u vmap h
    unfold LearntPrecisionGaussianUnits.sample_from_activation
    rcases h with h | h
    · simp [h]
    · cases ha : vmap u.id <;> simp [ha, h]
  · intro u choices vmap h
    simp [SoftmaxUnits.sample_from_activation, h]
  · intro u choices vmap h
    simp [SoftmaxWithZeroUnits.sample_from_activation, h]
  · intro u tem vmap h
    exact ⟨by simp [TruncatedExponentialUnits.sample_from_activation, h],
      by simp [TruncatedExponentialUnits.mean_field_from_activation, h]⟩
  · intro u vmap h
    exact ⟨by simp [ExponentialUnits.sample_from_activation, h],
      by simp [ExponentialUnits.mean_field_from_activation, h]⟩
  · intro u vmap h
    simp [NRELUnits.mean_field_from_activation, h]
  · intro u vmap h
    unfold GammaUnits.sample_from_activation
    rcases h with h | h
    · simp [h]
    · cases ha : vmap u.id <;> simp [ha, h]
  · intro u vmap h
    refine ⟨?_, ?_, ?_⟩
    · unfold SymmetricBinaryUnits.sample_from_activation
      rcases h with h | h
      · simp [h]
      · cases ha : vmap u.id <;> simp [ha, h]
    · unfold SymmetricBinaryUnits.mean_field_from_activation
      rcases h with h | h
      · simp [h]
      · cases ha : vmap u.id <;> simp [ha, h]
    · unfold SymmetricBinaryUnits.free_energy_term_from_activation
      rcases h with h | h
      · simp [h]
      · cases ha : vmap u.id <;> simp [ha, h]

/-- Witness for C9: the empty vmap makes concrete calls of several of the
covered methods fail with the propagated lookup failure. -/
theorem missing_vmap_entry_fails_witness :
    ((fun _ => none : VMap) 0 = none) ∧
    BinaryUnits.sample_from_activation ⟨0⟩ (fun _ => none) = none ∧
    GaussianUnits.mean_field_from_activation (GaussianUnits.make 0 1 none)
      (fun _ => none) = none ∧
    SoftmaxUnits.sample_from_activation ⟨0⟩ [[0]] (fun _ => none) = none ∧
    GammaUnits.sample_from_activation ⟨0, ⟨1, 0, none, fun x => x⟩⟩
      (fun _ => none) = none ∧
    SymmetricBinaryUnits.free_energy_term_from_activation
      ⟨0, ⟨1, 0, none, fun x => 1 - x⟩⟩ (fun _ => none) = none :=
  ⟨rfl, (missing_vmap_entry_fails.1 ⟨0⟩ (fun _ => none) rfl).1,
    (missing_vmap_entry_fails.2.1 (GaussianUnits.make 0 1 none) (fun _ => none) rfl).2,
    missing_vmap_entry_fails.2.2.2.1 ⟨0⟩ [[0]] (fun _ => none) rfl,
    missing_vmap_entry_fails.2.2.2.2.2.2.2.2.1 ⟨0, ⟨1, 0, none, fun x => x⟩⟩
      (fun _ => none) (Or.inl rfl),
    (missing_vmap_entry_fails.2.2.2.2.2.2.2.2.2 ⟨0, ⟨1, 0, none, fun x => 1 - x⟩⟩
      (fun _ => none) (Or.inl rfl)).2.2⟩

/-- C2 (code bug): the source line `s = a + samplers.gaussian(...)` of
`NRELUnits.sample_from_activation` reads the unbound name `a`, so every
call raises `NameError` instead of returning
`max(0, a + gaussian(0, sigmoid(a)))`; evaluated here at a concrete vmap
holding the unit's activation. -/
theorem nrelu_sample_raises_name_error :
    NRELUnits.sample_from_activation ⟨0⟩
      (fun k => if k = 0 then some (matrixT [[0]]) else none) =
      Except.error ("NameError: name a is not defined") := rfl

/-- C8: `BinaryUnits.mean_field_from_activation` is the elementwise
logistic of the unit's activation, every entry lies strictly between 0 and
1, and for the activation `[[0.0]]` the result is `[[0.5]]`. -/
theorem binary_mean_field_spec (u : BinaryUnits) (vmap : VMap) (a : Tensor)
    (h : vmap u.id = some a) :
    u.mean_field_from_activation vmap = some (a.map sigmoid) ∧
    Tensor.Forall (fun y => 0 < y ∧ y < 1) (a.map sigmoid) ∧
    BinaryUnits.mean_field_from_activation u
        (fun k => if k = u.id then some (matrixT [[0]]) else none) =
      some (matrixT [[1 / 2]]) := by
  refine ⟨?_, ?_, ?_⟩
  · simp [BinaryUnits.mean_field_from_activation, h]
  · exact Tensor.forall_map_intro _ _ (fun x => ⟨sigmoid_pos x, sigmoid_lt_one x⟩) a
  · simp [BinaryUnits.mean_field_from_activation, matrixT, Tensor.map, sigmoid_zero]

/-- Witness for C8 at the activation `[[0.0]]`. -/
theorem binary_mean_field_spec_witness :
    ((fun k => if k = 0 then some (matrixT [[0]]) else none : VMap) 0 =
      some (matrixT [[0]])) ∧
    (BinaryUnits.mean_field_from_activation ⟨0⟩
        (fun k => if k = 0 then some (matrixT [[0]]) else none) =
      some ((matrixT [[0]]).map sigmoid) ∧
    Tensor.Forall (fun y => 0 < y ∧ y < 1) ((matrixT [[0]]).map sigmoid) ∧
    BinaryUnits.mean_field_from_activation ⟨0⟩
        (fun k => if k = 0 then some (matrixT [[0]]) else none) =
      some (matrixT [[1 / 2]])) :=
  ⟨rfl, binary_mean_field_spec ⟨0⟩
    (fun k => if k = 0 then some (matrixT [[0]]) else none) (matrixT [[0]]) rfl⟩

/-- C1: with both the unit's own activation `a1` and the precision proxy's
activation `a2` resolved in the vmap and `a2` strictly negative,
`LearntPrecisionGaussianUnits.sample_from_activation` draws from the
Gaussian sampler with mean `a1 / (-2 * a2)` and variance `1 / (-2 * a2)`
(elementwise). -/
theorem learnt_precision_gaussian_sample_spec (u : LearntPrecisionGaussianUnits)
    (vmap : VMap) (a1 a2 : Tensor) (h1 : vmap u.id = some a1)
    (h2 : vmap u.precision_units.id = some a2)
    (hneg : Tensor.Forall (fun y => y < 0) a2) :
    u.sample_from_activation vmap =
      some (Draw.gaussian (Tensor.map₂ (fun x y => x / (-2 * y)) a1 a2)
        (a2.map (fun y => 1 / (-2 * y)))) := by
  unfold LearntPrecisionGaussianUnits.sample_from_activation
  rw [h1, h2]
  simp [Tensor.map₂_map_right, Tensor.map_map]

/-- Witness for C1: `a1 = [[1.0]]`, `a2 = [[-1.0]]`. -/
theorem learnt_precision_gaussian_sample_spec_witness :
    ((fun k => if k = 0 then some (matrixT [[1]])
        else if k = 1 then some (matrixT [[-1]]) else none : VMap) 0 =
      some (matrixT [[1]])) ∧
    ((fun k => if k = 0 then some (matrixT [[1]])
        else if k = 1 then some (matrixT [[-1]]) else none : VMap) 1 =
      some (matrixT [[-1]])) ∧
    Tensor.Forall (fun y => y < 0) (matrixT [[-1]]) ∧
    LearntPrecisionGaussianUnits.sample_from_activation ⟨0, ⟨1, 0, none, fun x => x ^ 2⟩⟩
        (fun k => if k = 0 then some (matrixT [[1]])
          else if k = 1 then some (matrixT [[-1]]) else none) =
      some (Draw.gaussian
        (Tensor.map₂ (fun x y => x / (-2 * y)) (matrixT [[1]]) (matrixT [[-1]]))
        ((matrixT [[-1]]).map (fun y => 1 / (-2 * y)))) :=
  ⟨rfl, rfl, by norm_num [matrixT, Tensor.Forall, Tensor.ForallList],
    learnt_precision_gaussian_sample_spec ⟨0, ⟨1, 0, none, fun x => x ^ 2⟩⟩ _ _ _ rfl rfl
      (by norm_num [matrixT, Tensor.Forall, Tensor.ForallList])⟩

/-- C5: with both activations resolved (own activation `a1` strictly
negative), `GammaUnits.sample` delegates to `sample_from_activation` over
the inline two-key vmap, and both reduce to the same draw
`gamma_approx(shape = a2 + 1, scale = -1 / a1)`. -/
theorem gamma_sample_refines (u : GammaUnits) (modelAct : ℕ → VMap → Option Tensor)
    (vmap : VMap) (a1 a2 : Tensor) (h1 : modelAct u.id vmap = some a1)
    (h2 : modelAct u.log_units.id vmap = some a2) (hne : u.id ≠ u.log_units.id)
    (hneg : Tensor.Forall (fun x => x < 0) a1) :
    u.sample modelAct vmap = GammaUnits.sample_from_activation u
        (fun k => if k = u.id then some a1
          else if k = u.log_units.id then some a2 else none) ∧
    u.sample modelAct vmap =
      some (Draw.gammaApprox (a2.map (fun y => y + 1)) (a1.map (fun x => -1 / x))) := by
  constructor
  · unfold GammaUnits.sample
    rw [h1, h2]
    rfl
  · unfold GammaUnits.sample GammaUnits.sample_from_activation
    rw [h1, h2]
    simp [Ne.symm hne]

/-- Witness for C5: `a1 = [[-1.0]]`, `a2 = [[1.0]]` resolved by a concrete
model activation collaborator. -/
theorem gamma_sample_refines_witness :
    ((fun k _ => if k = 0 then some (matrixT [[-1]])
        else if k = 1 then some (matrixT [[1]]) else none :
      ℕ → VMap → Option Tensor) 0 (fun _ => none) = some (matrixT [[-1]])) ∧
    ((fun k _ => if k = 0 then some (matrixT [[-1]])
        else if k = 1 then some (matrixT [[1]]) else none :
      ℕ → VMap → Option Tensor) 1 (fun _ => none) = some (matrixT [[1]])) ∧
    (0 : ℕ) ≠ 1 ∧
    Tensor.Forall (fun x => x < 0) (matrixT [[-1]]) ∧
    (GammaUnits.sample ⟨0, ⟨1, 0, none, fun x => x⟩⟩
        (fun k _ => if k = 0 then some (matrixT [[-1]])
          else if k = 1 then some (matrixT [[1]]) else none) (fun _ => none) =
      GammaUnits.sample_from_activation ⟨0, ⟨1, 0, none, fun x => x⟩⟩
        (fun k => if k = 0 then some (matrixT [[-1]])
          else if k = 1 then some (matrixT [[1]]) else none) ∧
    GammaUnits.sample ⟨0, ⟨1, 0, none, fun x => x⟩⟩
        (fun k _ => if k = 0 then some (matrixT [[-1]])
          else if k = 1 then some (matrixT [[1]]) else none) (fun _ => none) =
      some (Draw.gammaApprox ((matrixT [[1]]).map (fun y => y + 1))
        ((matrixT [[-1]]).map (fun x => -1 / x)))) :=
  ⟨rfl, rfl, by decide, by norm_num [matrixT, Tensor.Forall, Tensor.ForallList],
    gamma_sample_refines ⟨0, ⟨1, 0, none, fun x => x⟩⟩
      (fun k _ => if k = 0 then some (matrixT [[-1]])
        else if k = 1 then some (matrixT [[1]]) else none) (fun _ => none)
      (matrixT [[-1]]) (matrixT [[1]]) rfl rfl (by decide)
      (by norm_num [matrixT, Tensor.Forall, Tensor.ForallList])⟩

/-- C4: `SymmetricBinaryUnits.mean_field_from_activation` over the vmap
`{u : a, u.flipped : 1 - a}` agrees with
`BinaryUnits.mean_field_from_activation` over `{u : a - (1 - a)}`, both
being the elementwise `sigmoid(2 * a - 1)`. -/
theorem symmetric_binary_mean_field_reduces (s : SymmetricBinaryUnits)
    (b : BinaryUnits) (a : Tensor) (hne : s.id ≠ s.flipped_units.id) :
    SymmetricBinaryUnits.mean_field_from_activation s
        (fun k => if k = s.id then some a
          else if k = s.flipped_units.id then some (a.map (fun x => 1 - x)) else none) =
      BinaryUnits.mean_field_from_activation b
        (fun k => if k = b.id then
          some (Tensor.map₂ (fun x y => x - y) a (a.map (fun x => 1 - x))) else none) ∧
    SymmetricBinaryUnits.mean_field_from_activation s
        (fun k => if k = s.id then some a
          else if k = s.flipped_units.id then some (a.map (fun x => 1 - x)) else none) =
      some (a.map (fun x => sigmoid (2 * x - 1))) := by
  constructor
  · simp [SymmetricBinaryUnits.mean_field_from_activation,
      BinaryUnits.mean_field_from_activation, Ne.symm hne]
  · simp [SymmetricBinaryUnits.mean_field_from_activation, Ne.symm hne,
      Tensor.map₂_self_map, Tensor.map_map]
    exact Tensor.map_congr _ _ (fun x => by congr 1; ring) a

/-- Witness for C4 at `a = [[0.0]]`. -/
theorem symmetric_binary_mean_field_reduces_witness :
    (0 : ℕ) ≠ 1 ∧
    (SymmetricBinaryUnits.mean_field_from_activation ⟨0, ⟨1, 0, none, fun x => 1 - x⟩⟩
        (fun k => if k = 0 then some (matrixT [[0]])
          else if k = 1 then some ((matrixT [[0]]).map (fun x => 1 - x)) else none) =
      BinaryUnits.mean_field_from_activation ⟨7⟩
        (fun k => if k = 7 then
          some (Tensor.map₂ (fun x y => x - y) (matrixT [[0]])
            ((matrixT [[0]]).map (fun x => 1 - x))) else none) ∧
    SymmetricBinaryUnits.mean_field_from_activation ⟨0, ⟨1, 0, none, fun x => 1 - x⟩⟩
        (fun k => if k = 0 then some (matrixT [[0]])
          else if k = 1 then some ((matrixT [[0]]).map (fun x => 1 - x)) else none) =
      some ((matrixT [[0]]).map (fun x => sigmoid (2 * x - 1)))) :=
  ⟨by decide, symmetric_binary_mean_field_reduces ⟨0, ⟨1, 0, none, fun x => 1 - x⟩⟩ ⟨7⟩
    (matrixT [[0]]) (by decide)⟩

/-- C3: `BinaryUnits.free_energy_term_from_activation` sums
`-softplus(a)` over every axis except axis 0, leaving only the minibatch
axis, and for the activation `[[0.0]]` the result is `[-log 2]`. -/
theorem binary_free_energy_spec (u : BinaryUnits) (vmap : VMap) (rows : List Tensor)
    (h : vmap u.id = some (Tensor.axis rows)) :
    u.free_energy_term_from_activation vmap =
      some (Tensor.axis (rows.map (fun r =>
        Tensor.scalar (Tensor.sumAll (r.map (fun x => -(softplus x))))))) ∧
    BinaryUnits.free_energy_term_from_activation u
        (fun k => if k = u.id then some (matrixT [[0]]) else none) =
      some (Tensor.axis [Tensor.scalar (-(Real.log 2))]) := by
  constructor
  · simp [BinaryUnits.free_energy_term_from_activation, h, Tensor.map,
      Tensor.sumAllButFirst, List.map_map, Function.comp]
  · simp [BinaryUnits.free_energy_term_from_activation, matrixT, Tensor.map,
      Tensor.sumAllButFirst, Tensor.sumAll, Tensor.sumAllList, softplus_zero]

/-- Witness for C3 at the activation `[[0.0]]`. -/
theorem binary_free_energy_spec_witness :
    ((fun k => if k = 0 then some (matrixT [[0]]) else none : VMap) 0 =
      some (Tensor.axis [Tensor.axis [Tensor.scalar 0]])) ∧
    (BinaryUnits.free_energy_term_from_activation ⟨0⟩
        (fun k => if k = 0 then some (matrixT [[0]]) else none) =
      some (Tensor.axis ([Tensor.axis [Tensor.scalar 0]].map (fun r =>
        Tensor.scalar (Tensor.sumAll (r.map (fun x => -(softplus x))))))) ∧
    BinaryUnits.free_energy_term_from_activation ⟨0⟩
        (fun k => if k = 0 then some (matrixT [[0]]) else none) =
      some (Tensor.axis [Tensor.scalar (-(Real.log 2))])) :=
  ⟨rfl, binary_free_energy_spec ⟨0⟩
    (fun k => if k = 0 then some (matrixT [[0]]) else none)
    [Tensor.axis [Tensor.scalar 0]] rfl⟩

/-- Length of a one-hot row. -/
theorem onehotRow_length (c n : ℕ) : (onehotRow c n).length = n := by
  simp [onehotRow]

/-- Entries of a one-hot row. -/
theorem onehotRow_getElem (c n j : ℕ) (hj : j < n) :
    (onehotRow c n)[j]? = some (if c = j then (1 : ℝ) else 0) := by
  simp [onehotRow, List.getElem?_range hj]

/-- A one-hot row is one-hot (when the choice is in range) or all-zero
(when it is not), and 0/1-valued. -/
theorem rowIsOneHotOrZero_onehotRow (c n : ℕ) : RowIsOneHotOrZero (onehotRow c n) := by
  constructor
  · by_cases hc : c < n
    · left
      refine ⟨c, by simpa [onehotRow_length] using hc, ?_, ?_⟩
      · rw [onehotRow_getElem c n c hc]
        simp
      · intro j hj hne
        rw [onehotRow_length] at hj
        rw [onehotRow_getElem c n j hj]
        simp [Ne.symm hne]
    · right
      intro j hj
      rw [onehotRow_length] at hj
      rw [onehotRow_getElem c n j hj]
      have hcj : c ≠ j := by omega
      simp [hcj]
  · intro y hy
    simp only [onehotRow, List.mem_map, List.mem_range] at hy
    obtain ⟨k, hk, hval⟩ := hy
    by_cases h : c = k
    · right
      rw [← hval]
      simp [h]
    · left
      rw [← hval]
      simp [h]

/-- Chopping the last entry off a one-hot row gives the one-hot row one
shorter (still one-hot or all-zero). -/
theorem dropLast_onehotRow (c n : ℕ) :
    (onehotRow c n).dropLast = onehotRow c (n - 1) := by
  cases n with
  | zero => simp [onehotRow]
  | succ m => simp [onehotRow, List.range_succ]

/-- Decomposition of membership in a `zipWith`. -/
theorem exists_of_mem_zipWith {α β γ : Type _} {f : α → β → γ} :
    ∀ {as : List α} {bs : List β} {c : γ}, c ∈ List.zipWith f as bs →
      ∃ a ∈ as, ∃ b ∈ bs, c = f a b := by
  intro as
  induction as with
  | nil =>
    intro bs c h
    simp at h
  | cons a as ih =>
    intro bs c h
    cases bs with
    | nil => simp at h
    | cons b bs =>
      rw [List.zipWith_cons_cons] at h
      rcases List.mem_cons.mp h with rfl | h
      · exact ⟨a, by simp, b, by simp, rfl⟩
      · obtain ⟨x, hx, y, hy, rfl⟩ := ih h
        exact ⟨x, by simp [hx], y, by simp [hy], rfl⟩

/-- C6: every (minibatch, unit) row of
`SoftmaxWithZeroUnits.sample_from_activation` — obtained by drawing the
(N+1)-way multinomial over the softmax-with-implicit-zero probabilities and
discarding the last state column — has exactly one entry equal to 1 or is
all-zero, never more than one 1-entry. -/
theorem softmax_with_zero_sample_rows (u : SoftmaxWithZeroUnits)
    (choices : List (List ℕ)) (vmap : VMap3) (x out : Tensor3)
    (hx : vmap u.id = some x)
    (hout : u.sample_from_activation choices vmap = some out) :
    ∀ mb ∈ out, ∀ row ∈ mb, RowIsOneHotOrZero row := by
  unfold SoftmaxWithZeroUnits.sample_from_activation at hout
  rw [hx] at hout
  simp only [Option.map_some', Option.some.injEq] at hout
  subst hout
  intro mb hmb row hrow
  obtain ⟨mbrow, hmbrow, rfl⟩ := List.mem_map.mp hmb
  obtain ⟨r, hr, rfl⟩ := List.mem_map.mp hrow
  unfold multinomial at hmbrow
  obtain ⟨crow, hcrow, prow, hprow, rfl⟩ := exists_of_mem_zipWith hmbrow
  obtain ⟨c, hc, states, hstates, rfl⟩ := exists_of_mem_zipWith hr
  rw [dropLast_onehotRow]
  exact rowIsOneHotOrZero_onehotRow c (states.length - 1)

/-- Witness for C6: one minibatch, one unit, one real state with activation
0, the multinomial choice picking state 0, giving the one-hot sample
`[[[1.0]]]`. -/
theorem softmax_with_zero_sample_rows_witness :
    ((fun k => if k = 0 then some ([[[(0 : ℝ)]]]) else none : VMap3) 0 =
      some ([[[(0 : ℝ)]]])) ∧
    SoftmaxWithZeroUnits.sample_from_activation ⟨0⟩ [[0]]
        (fun k => if k = 0 then some ([[[(0 : ℝ)]]]) else none) =
      some ([[[(1 : ℝ)]]]) ∧
    ∀ mb ∈ ([[[(1 : ℝ)]]] : Tensor3), ∀ row ∈ mb, RowIsOneHotOrZero row := by
  have h2 : SoftmaxWithZeroUnits.sample_from_activation ⟨0⟩ [[0]]
      (fun k => if k = 0 then some ([[[(0 : ℝ)]]]) else none) =
      some ([[[(1 : ℝ)]]]) := by
    simp [SoftmaxWithZeroUnits.sample_from_activation, multinomial, softmax_with_zero,
      onehotRow, List.range_succ]
  exact ⟨rfl, h2, softmax_with_zero_sample_rows ⟨0⟩ [[0]]
    (fun k => if k = 0 then some ([[[(0 : ℝ)]]]) else none)
    [[[(0 : ℝ)]]] [[[(1 : ℝ)]]] rfl h2⟩
